import Mathlib

/-
Verification of gpytorch/means/multitask_mean.py (class MultitaskMean).

Shallow embedding notes.

The analysed source contains a single file defining MultitaskMean, with two
operations: the constructor (Python method init of the class) and forward.
The base class gpytorch.means.Mean, torch and copy.deepcopy are collaborators
outside the analysed sources; they are modelled as follows.

Base means carry mutable learned state (their registered parameters).  We make
that state explicit: a Store maps a mean identity (a natural number standing
for a Python object identity) to its current learned parameter, and carries a
freshness counter so that deep copies receive identities distinct from every
identity already in use.  A Mean value is a reference: an identity plus an
immutable behaviour function (the code of the mean), which maps the current
parameter and an input point to the mean value at that point, following the
contract stated for the Mean capability: evaluate a batch of inputs to one
scalar per input, as a function of the current parameters.

copy.deepcopy on a list of means is modelled element-wise: each element gets a
fresh identity and a copy of the parameter value of its original, while the
behaviour (code) is shared.  In the source, deepcopy is only ever reached with
an argument list of length at most one (longer lists are preceded by an
IndexError, see listIndexRange), so the memoisation deepcopy performs on
repeated objects cannot be observed and the element-wise model is exact.

torch.cat over a list of n x 1 columns is modelled by torchCat; torch.cat
raises an error when given an empty list of tensors, which the model renders
as the value none.

Machine reals are modelled by the rationals; no claim here depends on
floating-point rounding.
-/

namespace MultitaskSpec

/-- Modelled from the spec: the base Mean capability (class gpytorch.means.Mean
is not part of the analysed sources).  A mean is a reference holding an object
identity into the parameter Store and an immutable behaviour mapping the
current learned parameter and one input point to one scalar. -/
structure Mean where
  id : Nat
  beh : ℚ → ℚ → ℚ

instance : Inhabited Mean := ⟨⟨0, fun _ _ => 0⟩⟩

/-- Mutable parameter state of all mean objects: params maps each mean identity
to its current learned parameter, and next is the first unused identity, so a
store is well formed for a mean m when m.id < next. -/
structure Store where
  params : Nat → ℚ
  next : Nat

/-- Assignment to the learned parameter of the mean object with identity k
(external training updating one sub-mean). -/
def setParam (s : Store) (k : Nat) (v : ℚ) : Store :=
  ⟨fun i => if i = k then v else s.params i, s.next⟩

/-- State of a constructed MultitaskMean: the stored ModuleList of sub-means
and the stored task count. -/
structure MultitaskMean where
  base_means : List Mean
  n_tasks : Int

/-- Argument accepted by the constructor for base_means: a single Mean
instance, a Python list of means, or any other value (not a Mean and not a
list), which the isinstance checks of the source reject. -/
inductive BaseMeansArg where
  | single (m : Mean)
  | list (ms : List Mean)
  | other

/-- Errors the constructor can raise: the RuntimeError of the explicit length
check (invalid configuration), and the IndexError of the list indexing in the
expansion step. -/
inductive ConstructError where
  | configError
  | indexError
deriving DecidableEq

/-- First step of the constructor: a single Mean instance is wrapped into a
one-element list; a list is kept; anything else is not a list (none). -/
def wrapArg : BaseMeansArg → Option (List Mean)
  | .single m => some [m]
  | .list ms => some ms
  | .other => none

/-- Python list comprehension [bm[i] for i in range k]: it evaluates bm[i] for
i = 0, ..., k-1 and raises IndexError (none) as soon as some i is out of
bounds, which happens exactly when k exceeds the length of bm; when all
indices are in bounds the result is the first k elements of bm. -/
def listIndexRange (bm : List Mean) (k : Nat) : Option (List Mean) :=
  if k ≤ bm.length then some (bm.take k) else none

/-- Deep copy of one mean: a fresh identity (the freshness counter of the
store), the same behaviour (code is shared), and the parameter value of the
original copied over to the fresh identity. -/
def deepcopy1 (s : Store) (m : Mean) : Mean × Store :=
  (⟨s.next, m.beh⟩,
   ⟨fun i => if i = s.next then s.params m.id else s.params i, s.next + 1⟩)

/-- Deep copy of a list of means, element by element, threading the store. -/
def deepcopyList : Store → List Mean → List Mean × Store
  | s, [] => ([], s)
  | s, m :: ms =>
    let p := deepcopy1 s m
    let q := deepcopyList p.2 ms
    (p.1 :: q.1, q.2)

/-- Constructor of MultitaskMean, translated from the source.  Steps, in
order: wrap a single Mean into a one-element list; raise RuntimeError when the
argument is not a list or its length is neither 1 nor n_tasks; when the length
is 1, evaluate the list comprehension [base_means[i] for i in range(n_tasks -
1)] (which can raise IndexError), deepcopy the resulting list and append the
copies; store the list and n_tasks. -/
def MultitaskMean.init (s : Store) (base_means : BaseMeansArg) (n_tasks : Int) :
    Except ConstructError (MultitaskMean × Store) :=
  match wrapArg base_means with
  | none => .error .configError
  | some bm =>
    if bm.length ≠ 1 ∧ (bm.length : Int) ≠ n_tasks then
      .error .configError
    else if bm.length = 1 then
      match listIndexRange bm (n_tasks - 1).toNat with
      | none => .error .indexError
      | some picked =>
        let pc := deepcopyList s picked
        .ok (⟨bm ++ pc.1, n_tasks⟩, pc.2)
    else
      .ok (⟨bm, n_tasks⟩, s)

/-- Evaluation of one mean at one input point, under the current store. -/
def evalMean (s : Store) (m : Mean) (x : ℚ) : ℚ :=
  m.beh (s.params m.id) x

/-- Evaluation of one mean on a batch of inputs: one scalar per input point
(the contract of the Mean capability). -/
def evalBatch (s : Store) (m : Mean) (input : List ℚ) : List ℚ :=
  input.map (evalMean s m)

/-- torch.cat along the last dimension of a list of columns of length rows:
row r of the result collects entry r of every column.  torch.cat raises an
error on an empty list of tensors, modelled by none. -/
def torchCat (cols : List (List ℚ)) (rows : Nat) : Option (List (List ℚ)) :=
  if cols = [] then none
  else some ((List.range rows).map fun r => cols.map fun c => c.getD r 0)

/-- The forward method, translated from the source: evaluate every sub-mean on
the identical input batch, unsqueeze each result into a column and concatenate
the columns along the last dimension.  It reads the store and returns a value
without modifying any state, which the type records by not returning a
store. -/
def MultitaskMean.forward (s : Store) (self : MultitaskMean) (input : List ℚ) :
    Option (List (List ℚ)) :=
  torchCat (self.base_means.map fun m => evalBatch s m input) input.length

/-- Exchange of the elements at positions i and j of a list (used to state the
column-swap claim). -/
def listSwap {α : Type} [Inhabited α] (i j : Nat) (l : List α) : List α :=
  (l.set i (l.getD j default)).set j (l.getD i default)

/-- Concrete mean whose value is its current learned parameter. -/
def mean0 : Mean := ⟨0, fun p _ => p⟩

/-- Concrete constant mean returning 1. -/
def meanA : Mean := ⟨0, fun _ _ => 1⟩

/-- Concrete constant mean returning 2. -/
def meanB : Mean := ⟨1, fun _ _ => 2⟩

/-- Concrete store in which identity 0 is in use. -/
def store0 : Store := ⟨fun _ => 0, 1⟩

/-- Concrete store in which identities 0 and 1 are in use. -/
def storeC : Store := ⟨fun _ => 0, 2⟩

/-- Concrete two-task MultitaskMean with constant sub-means 1 and 2. -/
def mmC : MultitaskMean := ⟨[meanA, meanB], 2⟩

/-- Concrete five-point input batch. -/
def inC : List ℚ := [3, 4, 5, 6, 7]

/-- Concrete expected forward output for mmC on inC. -/
def outC : List (List ℚ) := [[1, 2], [1, 2], [1, 2], [1, 2], [1, 2]]

/-- Result of constructing with a single prototype and n_tasks = 0. -/
def initZ : Except ConstructError (MultitaskMean × Store) :=
  MultitaskMean.init store0 (.single mean0) 0

/-- The MultitaskMean produced by initZ. -/
def mmZ : MultitaskMean :=
  match initZ with
  | .ok p => p.1
  | .error _ => ⟨[], 0⟩

/-- The store produced by initZ. -/
def stZ : Store :=
  match initZ with
  | .ok p => p.2
  | .error _ => store0

/-- Result of constructing with a single prototype and n_tasks = 2. -/
def init2 : Except ConstructError (MultitaskMean × Store) :=
  MultitaskMean.init store0 (.single mean0) 2

/-- The MultitaskMean produced by init2. -/
def mm2 : MultitaskMean :=
  match init2 with
  | .ok p => p.1
  | .error _ => ⟨[], 0⟩

/-- The store produced by init2. -/
def st2 : Store :=
  match init2 with
  | .ok p => p.2
  | .error _ => store0

/-- Length of the list produced by deepcopyList equals the length of its
argument. -/
theorem deepcopyList_fst_length (s : Store) (l : List Mean) :
    (deepcopyList s l).1.length = l.length := by
  induction l generalizing s with
  | nil => rfl
  | cons m ms ih => simp [deepcopyList, ih]

/-- Constructor characterisation: when the wrapped argument has length equal to
n_tasks, construction stores the wrapped list unchanged and leaves the store
untouched. -/
theorem init_of_wrap_full (s : Store) (arg : BaseMeansArg) (bm : List Mean)
    (n : Int) (hw : wrapArg arg = some bm) (hlen : (bm.length : Int) = n) :
    MultitaskMean.init s arg n = .ok (⟨bm, n⟩, s) := by
  simp only [MultitaskMean.init, hw]
  have hc : ¬(bm.length ≠ 1 ∧ (bm.length : Int) ≠ n) := fun hand => hand.2 hlen
  rw [if_neg hc]
  by_cases h1 : bm.length = 1
  · rw [if_pos h1]
    have hn1 : n = 1 := by rw [h1] at hlen; exact_mod_cast hlen.symm
    subst hn1
    simp [listIndexRange, deepcopyList]
  · rw [if_neg h1]

/-- Constructor characterisation: a wrapped argument of length 1 together with
n_tasks at most 1 constructs successfully, stores the one-element list
unchanged and leaves the store untouched (the expansion appends nothing). -/
theorem init_of_wrap_le_one (s : Store) (arg : BaseMeansArg) (bm : List Mean)
    (n : Int) (hw : wrapArg arg = some bm) (hb : bm.length = 1) (hn : n ≤ 1) :
    MultitaskMean.init s arg n = .ok (⟨bm, n⟩, s) := by
  simp only [MultitaskMean.init, hw]
  have hc : ¬(bm.length ≠ 1 ∧ (bm.length : Int) ≠ n) := fun hand => hand.1 hb
  rw [if_neg hc, if_pos hb]
  have hk : (n - 1).toNat = 0 := by omega
  rw [hk]
  simp [listIndexRange, deepcopyList]

/-- Constructor characterisation: a single prototype with n_tasks = 2 succeeds
and appends one deep copy, carrying a fresh identity and the copied parameter
value. -/
theorem init_of_wrap_two (s : Store) (arg : BaseMeansArg) (m : Mean)
    (hw : wrapArg arg = some [m]) :
    MultitaskMean.init s arg 2 =
      .ok (⟨[m, ⟨s.next, m.beh⟩], 2⟩,
        ⟨fun i => if i = s.next then s.params m.id else s.params i, s.next + 1⟩) := by
  simp only [MultitaskMean.init, hw]
  rfl

/-- Constructor characterisation: a wrapped argument of length 1 together with
n_tasks at least 3 makes the list comprehension of the expansion step index out
of bounds, so construction fails with IndexError. -/
theorem init_of_wrap_ge_three (s : Store) (arg : BaseMeansArg) (bm : List Mean)
    (n : Int) (hw : wrapArg arg = some bm) (hb : bm.length = 1) (hn : 3 ≤ n) :
    MultitaskMean.init s arg n = .error .indexError := by
  simp only [MultitaskMean.init, hw]
  have hc : ¬(bm.length ≠ 1 ∧ (bm.length : Int) ≠ n) := fun hand => hand.1 hb
  rw [if_neg hc, if_pos hb]
  have hk : ¬((n - 1).toNat ≤ bm.length) := by rw [hb]; omega
  rw [listIndexRange, if_neg hk]

/-- Inversion of a successful construction: the stored n_tasks is the argument
n_tasks, and when n_tasks is at least 1 the stored list has length n_tasks. -/
theorem init_ok_inv (s : Store) (arg : BaseMeansArg) (n : Int)
    (mm : MultitaskMean) (s1 : Store)
    (h : MultitaskMean.init s arg n = .ok (mm, s1)) :
    mm.n_tasks = n ∧ (1 ≤ n → (mm.base_means.length : Int) = n) := by
  cases harg : wrapArg arg with
  | none => simp [MultitaskMean.init, harg] at h
  | some bm =>
    simp only [MultitaskMean.init, harg] at h
    by_cases hc : bm.length ≠ 1 ∧ (bm.length : Int) ≠ n
    · rw [if_pos hc] at h; simp at h
    · rw [if_neg hc] at h
      by_cases h1 : bm.length = 1
      · rw [if_pos h1] at h
        cases hidx : listIndexRange bm (n - 1).toNat with
        | none => rw [hidx] at h; simp at h
        | some picked =>
          rw [hidx] at h
          simp only [Except.ok.injEq, Prod.mk.injEq] at h
          obtain ⟨hmm, -⟩ := h
          subst hmm
          refine ⟨rfl, fun hn => ?_⟩
          by_cases hk : (n - 1).toNat ≤ bm.length
          · rw [listIndexRange, if_pos hk] at hidx
            have hpick : picked = bm.take (n - 1).toNat := by
              injection hidx with h2; exact h2.symm
            subst hpick
            simp only [MultitaskMean.base_means, List.length_append,
              deepcopyList_fst_length, List.length_take]
            omega
          · rw [listIndexRange, if_neg hk] at hidx; simp at hidx
      · rw [if_neg h1] at h
        simp only [Except.ok.injEq, Prod.mk.injEq] at h
        obtain ⟨hmm, -⟩ := h
        subst hmm
        push_neg at hc
        exact ⟨rfl, fun _ => hc h1⟩

/-- The two getD reads of listSwap commute with List.map at in-bounds
positions. -/
theorem listSwap_map {α β : Type} [Inhabited α] [Inhabited β] (f : α → β)
    (i j : Nat) (l : List α) (hi : i < l.length) (hj : j < l.length) :
    (listSwap i j l).map f = listSwap i j (l.map f) := by
  unfold listSwap
  rw [List.map_set, List.map_set,
    List.getD_eq_getElem l default hj, List.getD_eq_getElem l default hi,
    List.getD_eq_getElem (l.map f) default (by simpa using hj),
    List.getD_eq_getElem (l.map f) default (by simpa using hi)]
  simp

/-- Exchanging two elements preserves the length of a list. -/
theorem listSwap_length {α : Type} [Inhabited α] (i j : Nat) (l : List α) :
    (listSwap i j l).length = l.length := by
  simp [listSwap]

/-- torchCat maps a swap of two in-bounds columns to a swap inside each row. -/
theorem torchCat_swap (cols : List (List ℚ)) (rows i j : Nat)
    (hi : i < cols.length) (hj : j < cols.length) :
    torchCat (listSwap i j cols) rows =
      (torchCat cols rows).map (List.map (listSwap i j)) := by
  have hne : cols ≠ [] := List.ne_nil_of_length_pos (by omega)
  have hne2 : listSwap i j cols ≠ [] :=
    List.ne_nil_of_length_pos (by rw [listSwap_length]; omega)
  rw [torchCat, torchCat, if_neg hne2, if_neg hne]
  have hrows : List.map (fun r => List.map (fun c => c.getD r 0) (listSwap i j cols))
      (List.range rows) =
      List.map (listSwap (α := ℚ) i j)
        (List.map (fun r => List.map (fun c => c.getD r 0) cols) (List.range rows)) := by
    rw [List.map_map]
    apply List.map_eq_map_iff.mpr
    intro r _
    simp only [Function.comp_apply]
    exact listSwap_map (fun c => c.getD r 0) i j cols hi hj
  exact congrArg some hrows

/-- C1: the claim states that for every n_tasks at least 1, construction from
a single prototype succeeds and stores n_tasks sub-means.  The code contradicts
its own docstring here (the prototype is supposed to be copied n_tasks times):
the expansion comprehension indexes the one-element list out of bounds, so at
the concrete failing input n_tasks = 3 construction raises IndexError instead
of succeeding. -/
theorem singlePrototype_three_tasks_indexError :
    MultitaskMean.init store0 (.single mean0) 3 = .error .indexError := rfl

/-- C2: construction raises the invalid-configuration error (RuntimeError) if
and only if the wrapped base_means argument is not a list, or its length is
neither 1 nor n_tasks; the error is the synchronous result of construction. -/
theorem configError_iff_invalid_shape (s : Store) (arg : BaseMeansArg) (n : Int) :
    MultitaskMean.init s arg n = .error .configError ↔
      (wrapArg arg = none ∨
        ∃ bm, wrapArg arg = some bm ∧ bm.length ≠ 1 ∧ (bm.length : Int) ≠ n) := by
  cases harg : wrapArg arg with
  | none => simp [MultitaskMean.init, harg]
  | some bm =>
    have hrhs : ((some bm : Option (List Mean)) = none ∨
        ∃ bm2, (some bm : Option (List Mean)) = some bm2 ∧
          bm2.length ≠ 1 ∧ (bm2.length : Int) ≠ n) ↔
        (bm.length ≠ 1 ∧ (bm.length : Int) ≠ n) := by
      simp
    rw [hrhs]
    simp only [MultitaskMean.init, harg]
    by_cases hc : bm.length ≠ 1 ∧ (bm.length : Int) ≠ n
    · rw [if_pos hc]
      exact iff_of_true rfl hc
    · rw [if_neg hc]
      by_cases h1 : bm.length = 1
      · rw [if_pos h1]
        cases hidx : listIndexRange bm (n - 1).toNat with
        | none => simp [hc]
        | some picked => simp [hc]
      · rw [if_neg h1]; simp [hc]

/-- C3: forward applies every sub-mean to the identical input batch and stacks
the results: the output has one row per input point, each row has one entry
per sub-mean, and entry t of row r is the value of sub-mean t applied to the
input batch, read at point r. -/
theorem forward_applies_each_sub_mean (s : Store) (mm : MultitaskMean)
    (input : List ℚ) (out : List (List ℚ)) (r t : Nat)
    (h : MultitaskMean.forward s mm input = some out)
    (hr : r < input.length) (ht : t < mm.base_means.length) :
    out.length = input.length ∧
    (out.getD r []).length = mm.base_means.length ∧
    (out.getD r []).getD t 0 =
      (evalBatch s (mm.base_means.getD t default) input).getD r 0 := by
  have hne : mm.base_means.map (fun m => evalBatch s m input) ≠ [] := by
    rw [Ne, List.map_eq_nil_iff]
    exact List.ne_nil_of_length_pos (by omega)
  rw [MultitaskMean.forward, torchCat, if_neg hne, Option.some.injEq] at h
  have hlenout : out.length = input.length := by rw [← h]; simp
  have hrow : out.getD r [] =
      (mm.base_means.map fun m => evalBatch s m input).map fun c => c.getD r 0 := by
    rw [← h]
    rw [List.getD_eq_getElem
      ((List.range input.length).map fun rr =>
        (mm.base_means.map fun m => evalBatch s m input).map fun c => c.getD rr 0)
      [] (by simpa using hr)]
    simp
  refine ⟨hlenout, by rw [hrow]; simp, ?_⟩
  rw [hrow]
  rw [List.getD_eq_getElem
    ((mm.base_means.map fun m => evalBatch s m input).map fun c => c.getD r 0)
    0 (by simpa using ht)]
  simp only [List.getElem_map]
  rw [List.getD_eq_getElem mm.base_means default ht]

/-- C3 witness: with two constant sub-means returning 1 and 2 and a batch of
five points, the output is the 5 x 2 matrix whose rows all equal [1, 2], and
the theorem instantiated at row 4 and column 1 reads entry 2. -/
theorem forward_applies_each_sub_mean_example :
    outC.length = inC.length ∧
    (outC.getD 4 []).length = mmC.base_means.length ∧
    (outC.getD 4 []).getD 1 0 =
      (evalBatch storeC (mmC.base_means.getD 1 default) inC).getD 4 0 :=
  forward_applies_each_sub_mean storeC mmC inC outC 4 1 rfl (by decide) (by decide)

/-- C4 counterexample: the claim that every successful construction stores a
base_means list of length n_tasks fails at the concrete input n_tasks = 0 with
a single prototype: construction succeeds and stores one sub-mean next to
n_tasks = 0. -/
theorem length_ne_ntasks_at_zero :
    MultitaskMean.init store0 (.single mean0) 0 = .ok (mmZ, stZ) ∧
    (mmZ.base_means.length : Int) ≠ mmZ.n_tasks :=
  ⟨rfl, by decide⟩

/-- C4 amended: for every construction that returns with n_tasks at least 1,
the stored base_means list has length equal to the stored n_tasks. -/
theorem length_eq_ntasks_of_pos (s : Store) (arg : BaseMeansArg) (n : Int)
    (mm : MultitaskMean) (s1 : Store) (hn : 1 ≤ n)
    (h : MultitaskMean.init s arg n = .ok (mm, s1)) :
    (mm.base_means.length : Int) = mm.n_tasks ∧ mm.n_tasks = n := by
  obtain ⟨h1, h2⟩ := init_ok_inv s arg n mm s1 h
  refine ⟨?_, h1⟩
  rw [h1]
  exact h2 hn

/-- C4 witness: the amended invariant at a concrete two-element construction. -/
theorem length_eq_ntasks_of_pos_example :
    ((⟨[meanA, meanB], 2⟩ : MultitaskMean).base_means.length : Int) =
      (⟨[meanA, meanB], 2⟩ : MultitaskMean).n_tasks ∧
    (⟨[meanA, meanB], 2⟩ : MultitaskMean).n_tasks = 2 :=
  length_eq_ntasks_of_pos storeC (.list [meanA, meanB]) 2 ⟨[meanA, meanB], 2⟩
    storeC (by decide) rfl

/-- C5: a list whose length equals n_tasks is stored unchanged and in order,
and the store is untouched: no element is copied. -/
theorem full_list_stored_unchanged (s : Store) (ms : List Mean) (n : Int)
    (h : (ms.length : Int) = n) :
    MultitaskMean.init s (.list ms) n = .ok (⟨ms, n⟩, s) :=
  init_of_wrap_full s (.list ms) ms n rfl h

/-- C5 witness: a concrete two-element list with n_tasks = 2. -/
theorem full_list_stored_unchanged_example :
    MultitaskMean.init store0 (.list [meanB, meanA]) 2 =
      .ok (⟨[meanB, meanA], 2⟩, store0) :=
  full_list_stored_unchanged store0 [meanB, meanA] 2 (by decide)

/-- C6: constructing with the sub-means at positions i and j exchanged, all
other arguments equal, succeeds exactly like the original construction and
yields a forward output equal to the original output with the entries at
columns i and j exchanged in every row. -/
theorem swap_sub_means_swaps_columns (s : Store) (ms : List Mean) (i j : Nat)
    (input : List ℚ) (hi : i < ms.length) (hj : j < ms.length) :
    MultitaskMean.init s (.list (listSwap i j ms)) (ms.length : Int) =
      .ok (⟨listSwap i j ms, (ms.length : Int)⟩, s) ∧
    MultitaskMean.init s (.list ms) (ms.length : Int) =
      .ok (⟨ms, (ms.length : Int)⟩, s) ∧
    MultitaskMean.forward s ⟨listSwap i j ms, (ms.length : Int)⟩ input =
      (MultitaskMean.forward s ⟨ms, (ms.length : Int)⟩ input).map
        (List.map (listSwap (α := ℚ) i j)) := by
  refine ⟨init_of_wrap_full s _ _ _ rfl (by rw [listSwap_length]),
    init_of_wrap_full s _ _ _ rfl rfl, ?_⟩
  show torchCat ((listSwap i j ms).map fun m => evalBatch s m input) input.length =
    (torchCat (ms.map fun m => evalBatch s m input) input.length).map
      (List.map (listSwap (α := ℚ) i j))
  rw [listSwap_map (fun m => evalBatch s m input) i j ms hi hj]
  exact torchCat_swap _ input.length i j (by simpa using hi) (by simpa using hj)

/-- C6 witness: exchanging the two sub-means of a concrete two-task instance
exchanges the two columns of the forward output on a concrete batch. -/
theorem swap_sub_means_swaps_columns_example :
    MultitaskMean.init storeC (.list (listSwap 0 1 [meanA, meanB]))
        (([meanA, meanB] : List Mean).length : Int) =
      .ok (⟨listSwap 0 1 [meanA, meanB], (([meanA, meanB] : List Mean).length : Int)⟩, storeC) ∧
    MultitaskMean.init storeC (.list [meanA, meanB])
        (([meanA, meanB] : List Mean).length : Int) =
      .ok (⟨[meanA, meanB], (([meanA, meanB] : List Mean).length : Int)⟩, storeC) ∧
    MultitaskMean.forward storeC
        ⟨listSwap 0 1 [meanA, meanB], (([meanA, meanB] : List Mean).length : Int)⟩ [3, 4] =
      (MultitaskMean.forward storeC
        ⟨[meanA, meanB], (([meanA, meanB] : List Mean).length : Int)⟩ [3, 4]).map
        (List.map (listSwap (α := ℚ) 0 1)) :=
  swap_sub_means_swaps_columns storeC [meanA, meanB] 0 1 [3, 4] (by decide) (by decide)

/-- C7: after construction from a single prototype in a well-formed store,
assigning a new value to the learned parameter of the sub-mean at position i
leaves the learned parameter of the sub-mean at any other position j
unchanged: the expanded copies share no mutable state. -/
theorem deepcopy_param_independent (s : Store) (m : Mean) (n : Int) (i j : Nat)
    (v : ℚ) (mm : MultitaskMean) (s1 : Store)
    (hwf : m.id < s.next)
    (h : MultitaskMean.init s (.single m) n = .ok (mm, s1))
    (hij : i ≠ j) (hi : i < mm.base_means.length) (hj : j < mm.base_means.length) :
    (setParam s1 (mm.base_means.getD i default).id v).params
        (mm.base_means.getD j default).id =
      s1.params (mm.base_means.getD j default).id := by
  have hcase : n ≤ 1 ∨ n = 2 ∨ 3 ≤ n := by omega
  rcases hcase with hn | hn | hn
  · rw [init_of_wrap_le_one s (.single m) [m] n rfl rfl hn] at h
    simp only [Except.ok.injEq, Prod.mk.injEq] at h
    obtain ⟨hmm, -⟩ := h
    subst hmm
    simp only [List.length_cons, List.length_nil] at hi hj
    omega
  · subst hn
    rw [init_of_wrap_two s (.single m) m rfl] at h
    simp only [Except.ok.injEq, Prod.mk.injEq] at h
    obtain ⟨hmm, hs1⟩ := h
    subst hmm
    subst hs1
    have hne : m.id ≠ s.next := Nat.ne_of_lt hwf
    simp only [List.length_cons, List.length_nil] at hi hj
    interval_cases i <;> interval_cases j <;>
      simp_all [setParam, List.getD_cons_zero, List.getD_cons_succ, hne, Ne.symm hne]
  · rw [init_of_wrap_ge_three s (.single m) [m] n rfl rfl hn] at h
    simp at h

/-- C7 witness: the concrete expansion of one prototype to two tasks; updating
the parameter of the first sub-mean does not change the parameter of the
second. -/
theorem deepcopy_param_independent_example :
    (setParam st2 (mm2.base_means.getD 0 default).id 5).params
        (mm2.base_means.getD 1 default).id =
      st2.params (mm2.base_means.getD 1 default).id :=
  deepcopy_param_independent store0 mean0 2 0 1 5 mm2 st2 (by decide) rfl
    (by decide) (by decide) (by decide)

/-- C8 counterexample: the claim that forward raises no error for every
successfully constructed instance fails at the concrete input of an empty list
with n_tasks = 0: construction succeeds, yet forward fails because torch.cat
rejects an empty list of tensors. -/
theorem forward_error_on_empty_constructed :
    MultitaskMean.init store0 (.list []) 0 = .ok (⟨[], 0⟩, store0) ∧
    MultitaskMean.forward store0 ⟨[], 0⟩ [3] = none :=
  ⟨rfl, rfl⟩

/-- C8 amended: for every instance constructed with n_tasks at least 1,
forward returns a value on every input (no error), and the result is a pure
function of the input and the current parameters of the stored sub-means: two
stores agreeing on those parameters produce identical outputs.  The embedding
of forward returns no store, reflecting that it writes no state. -/
theorem forward_total_and_pure_of_pos (s0 : Store) (arg : BaseMeansArg) (n : Int)
    (mm : MultitaskMean) (s1 s s2 : Store) (input : List ℚ)
    (hn : 1 ≤ n) (h : MultitaskMean.init s0 arg n = .ok (mm, s1))
    (hagree : ∀ m ∈ mm.base_means, s.params m.id = s2.params m.id) :
    (∃ out, MultitaskMean.forward s mm input = some out) ∧
    MultitaskMean.forward s mm input = MultitaskMean.forward s2 mm input := by
  have hlen : (mm.base_means.length : Int) = n := (init_ok_inv s0 arg n mm s1 h).2 hn
  have hpos : 0 < mm.base_means.length := by omega
  have hne : mm.base_means.map (fun m => evalBatch s m input) ≠ [] := by
    rw [Ne, List.map_eq_nil_iff]
    exact List.ne_nil_of_length_pos hpos
  constructor
  · rw [MultitaskMean.forward, torchCat, if_neg hne]
    exact ⟨_, rfl⟩
  · have hcols : mm.base_means.map (fun m => evalBatch s m input) =
        mm.base_means.map (fun m => evalBatch s2 m input) :=
      List.map_eq_map_iff.mpr (fun m hm => by
        simp [evalBatch, evalMean, hagree m hm])
    rw [MultitaskMean.forward, MultitaskMean.forward, hcols]

/-- C8 witness: a concrete one-task instance evaluated on a two-point batch. -/
theorem forward_total_and_pure_of_pos_example :
    (∃ out, MultitaskMean.forward storeC ⟨[mean0], 1⟩ [1, 2] = some out) ∧
    MultitaskMean.forward storeC ⟨[mean0], 1⟩ [1, 2] =
      MultitaskMean.forward storeC ⟨[mean0], 1⟩ [1, 2] :=
  forward_total_and_pure_of_pos store0 (.single mean0) 1 ⟨[mean0], 1⟩ store0
    storeC storeC [1, 2] (by decide) rfl (fun _ _ => rfl)

/-- C9: whenever the wrapped base_means list has length 1 and n_tasks is at
least 3, the expansion comprehension indexes the one-element list out of
bounds and construction fails with IndexError, not with the
invalid-configuration error and not with a constructed instance. -/
theorem expansion_indexError_of_three_tasks (s : Store) (arg : BaseMeansArg)
    (bm : List Mean) (n : Int) (hw : wrapArg arg = some bm) (hb : bm.length = 1)
    (hn : 3 ≤ n) :
    MultitaskMean.init s arg n = .error .indexError :=
  init_of_wrap_ge_three s arg bm n hw hb hn

/-- C9 witness: a concrete one-element list with n_tasks = 4. -/
theorem expansion_indexError_of_three_tasks_example :
    MultitaskMean.init storeC (.list [meanA]) 4 = .error .indexError :=
  expansion_indexError_of_three_tasks storeC (.list [meanA]) [meanA] 4 rfl rfl
    (by decide)

/-- C10: for n_tasks below 1 with a single prototype or a one-element list,
construction raises no error, the expansion appends nothing, and the result
stores one sub-mean next to the given n_tasks, so the stored length differs
from n_tasks. -/
theorem nonpositive_ntasks_constructs (s : Store) (arg : BaseMeansArg) (m : Mean)
    (n : Int) (harg : arg = BaseMeansArg.single m ∨ arg = BaseMeansArg.list [m])
    (hn : n < 1) :
    MultitaskMean.init s arg n = .ok (⟨[m], n⟩, s) ∧
    (([m] : List Mean).length : Int) ≠ n := by
  have hw : wrapArg arg = some [m] := by rcases harg with rfl | rfl <;> rfl
  refine ⟨init_of_wrap_le_one s arg [m] n hw rfl (by omega), ?_⟩
  have h1 : (([m] : List Mean).length : Int) = 1 := by simp
  omega

/-- C10 witness: n_tasks = 0 with a concrete single prototype. -/
theorem nonpositive_ntasks_constructs_example :
    MultitaskMean.init storeC (.single meanB) 0 = .ok (⟨[meanB], 0⟩, storeC) ∧
    (([meanB] : List Mean).length : Int) ≠ 0 :=
  nonpositive_ntasks_constructs storeC (.single meanB) meanB 0 (Or.inl rfl)
    (by decide)

end MultitaskSpec
